import Mathlib

/-!
Verification of the Cardputer Matrix pager client against its design notes.

The development shallowly embeds the logic of src/cardputer.ino:
the fixed-capacity message history buffer (addMessage), the sync cycle
(syncMatrix) over an abstract transport outcome, the main loop tick
(keyboard, forced post-send sync, periodic sync scheduling), and the
transaction-id generation of sendMessage. Machine integers are modelled
as Nat with explicit reduction modulo 2 to the 32 where the source relies
on 32-bit unsigned arithmetic; C character buffers are modelled as the
string contents up to the terminating null; fields that the source reads
from JSON documents through ArduinoJson, where a missing field yields a
null pointer, are modelled as Option values.
-/

namespace CardputerPager

/-- SYNC_INTERVAL_MS from the source configuration block: poll every 5 seconds. -/
def SYNC_INTERVAL_MS : Nat := 5000

/-- MAX_HISTORY from the source configuration block: max messages kept in RAM. -/
def MAX_HISTORY : Nat := 10

/-- MAX_MSG_LEN from the source configuration block: size of the body buffer. -/
def MAX_MSG_LEN : Nat := 120

/-- ROOM_ID from the source configuration block (placeholder value). -/
def ROOM_ID : String := "!your_room_id:homeserver.com"

/-- Model of strncpy of src into an n-byte window followed by an explicit
null termination at index n: the stored C string holds the first n
characters of the source. -/
def strncpyBounded (src : String) (n : Nat) : String :=
  (src.toList.take n).asString

/-- One entry of messageBuffer: struct MatrixMessage with char sender[32]
and char body[MAX_MSG_LEN]. Each field is modelled by the character data
stored before the terminating null. -/
structure MatrixMessage where
  sender : String
  body : String
deriving Repr, DecidableEq

/-- The stored entry that addMessage writes for a given sender and body:
strncpy(sender, 31) with sender[31] = 0, and strncpy(body, MAX_MSG_LEN - 1)
with body[MAX_MSG_LEN - 1] = 0. -/
def mkStoredMessage (sender body : String) : MatrixMessage :=
  { sender := strncpyBounded sender 31
    body := strncpyBounded body (MAX_MSG_LEN - 1) }

/-- addMessage from the source, over the list of currently stored messages
(messageBuffer entries 0 .. messageCount - 1). When messageCount has
reached MAX_HISTORY the source shifts entries 1 .. MAX_HISTORY - 1 down by
one slot and sets messageCount to MAX_HISTORY - 1, then writes the new
entry at the tail and increments messageCount. -/
def addMessage (hist : List MatrixMessage) (sender body : String) : List MatrixMessage :=
  (if MAX_HISTORY ≤ hist.length then ((hist.drop 1).take (MAX_HISTORY - 1)) else hist)
    ++ [mkStoredMessage sender body]

/-- The history produced by a sequence of addMessage calls starting from the
empty buffer, in call order. -/
def appendAll (pairs : List (String × String)) : List MatrixMessage :=
  pairs.foldl (fun h p => addMessage h p.1 p.2) []

lemma appendAll_append (pairs : List (String × String)) (p : String × String) :
    appendAll (pairs ++ [p]) = addMessage (appendAll pairs) p.1 p.2 := by
  simp [appendAll, List.foldl_append]

lemma appendAll_spec (pairs : List (String × String)) :
    (appendAll pairs).length = min pairs.length MAX_HISTORY ∧
      appendAll pairs =
        (pairs.map fun p => mkStoredMessage p.1 p.2).drop (pairs.length - MAX_HISTORY) := by
  have hM : MAX_HISTORY = 10 := rfl
  induction pairs using List.reverseRecOn with
  | nil => simp [appendAll]
  | append_singleton pairs p ih =>
    obtain ⟨ihlen, iheq⟩ := ih
    have hmaplen : (pairs.map fun p => mkStoredMessage p.1 p.2).length = pairs.length :=
      List.length_map _ _
    rw [appendAll_append]
    by_cases hN : MAX_HISTORY ≤ pairs.length
    · have hfull : (appendAll pairs).length = MAX_HISTORY := by
        rw [ihlen]; omega
      have hguard : MAX_HISTORY ≤ (appendAll pairs).length := by omega
      have hdrop :
          ((appendAll pairs).drop 1) =
            (pairs.map fun p => mkStoredMessage p.1 p.2).drop
              (pairs.length - MAX_HISTORY + 1) := by
        rw [iheq, List.drop_drop]
      have hdlen :
          (((appendAll pairs).drop 1)).length = MAX_HISTORY - 1 := by
        rw [List.length_drop, hfull]
      have htake :
          (((appendAll pairs).drop 1).take (MAX_HISTORY - 1)) =
            ((appendAll pairs).drop 1) :=
        List.take_of_length_le (by rw [hdlen])
      have hidx : pairs.length - MAX_HISTORY + 1 =
          (pairs ++ [p]).length - MAX_HISTORY := by
        simp only [List.length_append, List.length_cons, List.length_nil]
        omega
      constructor
      · simp only [addMessage]
        rw [if_pos hguard, htake]
        simp only [List.length_append, hdlen, List.length_cons, List.length_nil]
        omega
      · simp only [addMessage]
        rw [if_pos hguard, htake, hdrop, List.map_append, List.map_singleton,
          List.drop_append_of_le_length (by rw [hmaplen]; simp only [List.length_append,
            List.length_cons, List.length_nil]; omega), hidx]
    · have hguard : ¬ MAX_HISTORY ≤ (appendAll pairs).length := by
        rw [ihlen]; omega
      constructor
      · simp only [addMessage]
        rw [if_neg hguard]
        simp only [List.length_append, ihlen, List.length_cons, List.length_nil]
        omega
      · have h0 : pairs.length - MAX_HISTORY = 0 := by omega
        have h1 : (pairs ++ [p]).length - MAX_HISTORY = 0 := by
          simp only [List.length_append, List.length_cons, List.length_nil]
          omega
        simp only [addMessage]
        rw [if_neg hguard, iheq]
        simp only [h0, h1, List.drop_zero, List.map_append, List.map_singleton]

/-- C4: for every sequence of N append operations starting from the empty
history with capacity MAX_HISTORY, the resulting length equals
min(N, MAX_HISTORY) and the stored entries are exactly the entries
constructed from the last min(N, MAX_HISTORY) appended messages, in their
original relative order (oldest evicted first). -/
theorem ringBuffer_bound_and_order (pairs : List (String × String)) :
    (appendAll pairs).length = min pairs.length MAX_HISTORY ∧
      appendAll pairs =
        (pairs.map fun p => mkStoredMessage p.1 p.2).drop (pairs.length - MAX_HISTORY) :=
  appendAll_spec pairs

/-- C8: the stored sender is the input truncated to at most 31 characters
and the stored body is the input truncated to at most MAX_MSG_LEN - 1 = 119
characters; the stored strings fit inside the 32-byte and 120-byte buffers
with the terminating null in bounds, and input that is short enough is
stored unmodified, never wrapped or rejected. -/
theorem addMessage_truncates_fields (sender body : String) :
    (mkStoredMessage sender body).sender.toList = sender.toList.take 31 ∧
      (mkStoredMessage sender body).body.toList = body.toList.take 119 ∧
      (mkStoredMessage sender body).sender.length ≤ 31 ∧
      (mkStoredMessage sender body).body.length ≤ 119 ∧
      (sender.length ≤ 31 → (mkStoredMessage sender body).sender = sender) ∧
      (body.length ≤ 119 → (mkStoredMessage sender body).body = body) := by
  have hsl : sender.toList.length = sender.length := rfl
  have hbl : body.toList.length = body.length := rfl
  refine ⟨rfl, rfl, ?_, ?_, ?_, ?_⟩
  · simp only [mkStoredMessage, strncpyBounded, List.length_asString]
    exact List.length_take_le _ _
  · simp only [mkStoredMessage, strncpyBounded, List.length_asString]
    exact List.length_take_le _ _
  · intro h
    simp only [mkStoredMessage, strncpyBounded]
    rw [List.take_of_length_le (by rw [hsl]; exact h), String.asString_toList]
  · intro h
    simp only [mkStoredMessage, strncpyBounded]
    rw [List.take_of_length_le (by rw [hbl]; exact h), String.asString_toList]

/-- One decoded event content object: content.msgtype and content.body,
each a null pointer when the field is absent. -/
structure EventContent where
  msgtype : Option String
  body : Option String
deriving Repr, DecidableEq

/-- One decoded timeline event. Reading a missing field through ArduinoJson
yields a null pointer, modelled by none. -/
structure TimelineEvent where
  type : Option String
  sender : Option String
  content : Option EventContent
deriving Repr, DecidableEq

/-- The nested read v.content.msgtype: null when content itself is absent. -/
def contentMsgtype (v : TimelineEvent) : Option String :=
  v.content.bind EventContent.msgtype

/-- The nested read v.content.body: null when content itself is absent. -/
def contentBody (v : TimelineEvent) : Option String :=
  v.content.bind EventContent.body

/-- The decoded data kept for one joined room: the timeline.events array,
none when it is absent or null in the document. -/
structure RoomJoinData where
  timelineEvents : Option (List TimelineEvent)
deriving Repr, DecidableEq

/-- The document produced by the filtered phase-2 decode: the top-level
next_batch string (none when absent or null) and the rooms.join object as
an association list from room id to room data. -/
structure SyncDoc where
  next_batch : Option String
  roomsJoin : List (String × RoomJoinData)
deriving Repr, DecidableEq

/-- The engine state owned by the sync logic: the continuation token
nextBatchToken and the message history buffer. -/
structure SyncState where
  nextBatchToken : String
  messageBuffer : List MatrixMessage
deriving Repr, DecidableEq

/-- The environment one sync cycle runs against: connectivity, free heap,
the HTTP status of the GET, the result of extractBatchToken on the raw
stream (phase 1), and the result of the filtered deserializeJson
(phase 2, none on a DeserializationError). -/
structure SyncEnv where
  wifiConnected : Bool
  freeHeap : Nat
  httpCode : Int
  probeResult : String
  decodeResult : Option SyncDoc
deriving Repr, DecidableEq

/-- The observable outcome of one syncMatrix call: the updated state, how
many HTTP requests were issued, and the argument pairs passed to
addMessage in order (none standing for a null pointer argument). -/
structure SyncOutcome where
  state : SyncState
  networkCalls : Nat
  addMessageCalls : List (Option String × Option String)
deriving Repr, DecidableEq

/-- True when some addMessage invocation of the cycle received a null
pointer for sender or body; in the C source that argument reaches strncpy,
which is undefined behavior. -/
def passesNullPointer (o : SyncOutcome) : Bool :=
  o.addMessageCalls.any fun c => c.1.isNone || c.2.isNone

/-- isInitialSync from the source: the cycle runs the phase-1 probe exactly
when the stored token is empty. -/
def isInitialSyncPhase (st : SyncState) : Bool :=
  st.nextBatchToken.length == 0

/-- The effect of the call addMessage(sender, body) at the C call site: with
both pointers non-null the entry is stored; a null pointer reaches strncpy,
undefined behavior in the source, under which the model leaves the buffer
unchanged and the outcome is flagged by passesNullPointer. -/
def callAddMessage (hist : List MatrixMessage) :
    Option String × Option String → List MatrixMessage
  | (some sender, some body) => addMessage hist sender body
  | _ => hist

/-- One iteration of the phase-2 event loop: type and content.msgtype are
null-checked and compared; on a match, addMessage is invoked on the sender
and content.body pointers with no presence check. The accumulator carries
the buffer and the trace of addMessage argument pairs. -/
def eventLoopStep (acc : List MatrixMessage × List (Option String × Option String))
    (v : TimelineEvent) :
    List MatrixMessage × List (Option String × Option String) :=
  match v.type with
  | some t =>
    if t = "m.room.message" then
      match contentMsgtype v with
      | some mt =>
        if mt = "m.text" then
          (callAddMessage acc.1 (v.sender, contentBody v),
            acc.2 ++ [(v.sender, contentBody v)])
        else acc
      | none => acc
    else acc
  | none => acc

/-- syncMatrix from the source, as a function of the pre-state and the
cycle environment. Mirrors, in order: the WiFi guard, the free-heap
admission check against 40000, phase selection from token emptiness, the
HTTP status dispatch, the phase-1 token probe, the phase-2 filtered decode
with token refresh, room presence check and event loop, and the
400/401/404 token reset in the error branch. -/
def syncMatrix (st : SyncState) (env : SyncEnv) : SyncOutcome :=
  if env.wifiConnected = false then
    { state := st, networkCalls := 0, addMessageCalls := [] }
  else if env.freeHeap < 40000 then
    { state := st, networkCalls := 0, addMessageCalls := [] }
  else if env.httpCode = 200 then
    if isInitialSyncPhase st then
      if 0 < env.probeResult.length then
        { state := { st with nextBatchToken := env.probeResult },
          networkCalls := 1, addMessageCalls := [] }
      else
        { state := st, networkCalls := 1, addMessageCalls := [] }
    else
      match env.decodeResult with
      | none => { state := st, networkCalls := 1, addMessageCalls := [] }
      | some doc =>
        let tok :=
          match doc.next_batch with
          | some nb => nb
          | none => st.nextBatchToken
        match doc.roomsJoin.lookup ROOM_ID with
        | some room =>
          match room.timelineEvents with
          | some events =>
            if 0 < events.length then
              let r := events.foldl eventLoopStep (st.messageBuffer, [])
              { state := { nextBatchToken := tok, messageBuffer := r.1 },
                networkCalls := 1, addMessageCalls := r.2 }
            else
              { state := { st with nextBatchToken := tok },
                networkCalls := 1, addMessageCalls := [] }
          | none =>
            { state := { st with nextBatchToken := tok },
              networkCalls := 1, addMessageCalls := [] }
        | none =>
          { state := { st with nextBatchToken := tok },
            networkCalls := 1, addMessageCalls := [] }
  else if env.httpCode = 400 ∨ env.httpCode = 401 ∨ env.httpCode = 404 then
    { state := { st with nextBatchToken := "" },
      networkCalls := 1, addMessageCalls := [] }
  else
    { state := st, networkCalls := 1, addMessageCalls := [] }

lemma string_length_eq_zero_iff (s : String) : s.length = 0 ↔ s = "" := by
  constructor
  · intro h
    have : s.toList = [] := List.length_eq_zero.mp h
    have := congrArg List.asString this
    rwa [String.asString_toList] at this
  · intro h
    subst h
    rfl

/-- C1: when the HTTP status of a cycle that reaches the network is 400,
401 or 404, the token is reset to the empty string, so the next triggered
cycle runs the phase-1 initial probe; this holds for every prior token
value, hence for cycles starting in either phase. -/
theorem tokenInvalid_resets_token (st : SyncState) (env : SyncEnv)
    (hw : env.wifiConnected = true) (hm : 40000 ≤ env.freeHeap)
    (hc : env.httpCode = 400 ∨ env.httpCode = 401 ∨ env.httpCode = 404) :
    (syncMatrix st env).state.nextBatchToken = "" ∧
      isInitialSyncPhase (syncMatrix st env).state = true := by
  have hm' : ¬ env.freeHeap < 40000 := by omega
  have hne : ¬ env.httpCode = 200 := by rcases hc with h | h | h <;> omega
  rcases hc with h | h | h <;>
    simp [syncMatrix, hw, hm', hne, h, isInitialSyncPhase]

theorem tokenInvalid_resets_token_witness :
    (syncMatrix ⟨"oldtoken", []⟩ ⟨true, 50000, 401, "", none⟩).state.nextBatchToken = "" ∧
      isInitialSyncPhase (syncMatrix ⟨"oldtoken", []⟩ ⟨true, 50000, 401, "", none⟩).state
        = true :=
  tokenInvalid_resets_token ⟨"oldtoken", []⟩ ⟨true, 50000, 401, "", none⟩
    rfl (by decide) (Or.inr (Or.inl rfl))

/-- C2: a cycle that reaches the network and fails transiently leaves the
token exactly as it was: this covers every non-2xx status other than
400, 401 and 404 (including negative transport error codes), and every
200 response in the incremental phase whose body fails the structured
decode. The whole state is in fact unchanged. -/
theorem transientFailure_token_unchanged (st : SyncState) (env : SyncEnv)
    (hw : env.wifiConnected = true) (hm : 40000 ≤ env.freeHeap)
    (hcase :
      (¬ (200 ≤ env.httpCode ∧ env.httpCode < 300) ∧
        env.httpCode ≠ 400 ∧ env.httpCode ≠ 401 ∧ env.httpCode ≠ 404) ∨
      (env.httpCode = 200 ∧ st.nextBatchToken ≠ "" ∧ env.decodeResult = none)) :
    (syncMatrix st env).state.nextBatchToken = st.nextBatchToken ∧
      (syncMatrix st env).state = st := by
  have hm' : ¬ env.freeHeap < 40000 := by omega
  rcases hcase with ⟨hrange, h400, h401, h404⟩ | ⟨h200, htok, hdec⟩
  · have hne : ¬ env.httpCode = 200 := by omega
    have hcls : ¬ (env.httpCode = 400 ∨ env.httpCode = 401 ∨ env.httpCode = 404) := by
      rintro (h | h | h) <;> omega
    simp [syncMatrix, hw, hm', hne, hcls]
  · have hphase : isInitialSyncPhase st = false := by
      simp only [isInitialSyncPhase, beq_eq_false_iff_ne, ne_eq]
      rw [string_length_eq_zero_iff]
      exact htok
    simp [syncMatrix, hw, hm', h200, hphase, hdec]

theorem transientFailure_token_unchanged_witness :
    (syncMatrix ⟨"tok1", []⟩ ⟨true, 50000, 500, "", none⟩).state.nextBatchToken = "tok1" ∧
      (syncMatrix ⟨"tok1", []⟩ ⟨true, 50000, 500, "", none⟩).state = ⟨"tok1", []⟩ :=
  transientFailure_token_unchanged ⟨"tok1", []⟩ ⟨true, 50000, 500, "", none⟩
    rfl (by decide)
    (Or.inl ⟨by decide, by decide, by decide, by decide⟩)

/-- C5: a 200 incremental response that decodes but whose rooms.join object
has no entry for ROOM_ID appends nothing to the history and is handled as
a normal success: exactly one request was issued and the token is
refreshed from next_batch exactly as on any other success. -/
theorem roomAbsent_zero_messages (st : SyncState) (env : SyncEnv) (doc : SyncDoc)
    (hw : env.wifiConnected = true) (hm : 40000 ≤ env.freeHeap)
    (hc : env.httpCode = 200) (htok : st.nextBatchToken ≠ "")
    (hd : env.decodeResult = some doc)
    (hroom : doc.roomsJoin.lookup ROOM_ID = none) :
    (syncMatrix st env).state.messageBuffer = st.messageBuffer ∧
      (syncMatrix st env).addMessageCalls = [] ∧
      (syncMatrix st env).networkCalls = 1 ∧
      (syncMatrix st env).state.nextBatchToken =
        doc.next_batch.getD st.nextBatchToken := by
  have hm' : ¬ env.freeHeap < 40000 := by omega
  have hphase : isInitialSyncPhase st = false := by
    simp only [isInitialSyncPhase, beq_eq_false_iff_ne, ne_eq]
    rw [string_length_eq_zero_iff]
    exact htok
  cases hnb : doc.next_batch <;>
    simp [syncMatrix, hw, hm', hc, hphase, hd, hroom, hnb]

theorem roomAbsent_zero_messages_witness :
    (syncMatrix ⟨"tok1", []⟩
        ⟨true, 50000, 200, "", some ⟨some "tok2", []⟩⟩).state.messageBuffer = [] ∧
      (syncMatrix ⟨"tok1", []⟩
        ⟨true, 50000, 200, "", some ⟨some "tok2", []⟩⟩).addMessageCalls = [] ∧
      (syncMatrix ⟨"tok1", []⟩
        ⟨true, 50000, 200, "", some ⟨some "tok2", []⟩⟩).networkCalls = 1 ∧
      (syncMatrix ⟨"tok1", []⟩
        ⟨true, 50000, 200, "", some ⟨some "tok2", []⟩⟩).state.nextBatchToken =
        (Option.getD (some "tok2") "tok1") :=
  roomAbsent_zero_messages ⟨"tok1", []⟩ ⟨true, 50000, 200, "", some ⟨some "tok2", []⟩⟩
    ⟨some "tok2", []⟩ rfl (by decide) rfl (by decide) rfl rfl

/-- C7: when free heap is below the 40000-byte floor at the start of a
cycle, syncMatrix performs zero network calls and leaves the token, the
history and hence their counts unchanged, whatever the rest of the
environment holds. -/
theorem lowMemory_skips_cycle (st : SyncState) (env : SyncEnv)
    (hm : env.freeHeap < 40000) :
    (syncMatrix st env).networkCalls = 0 ∧
      (syncMatrix st env).state = st ∧
      (syncMatrix st env).state.nextBatchToken = st.nextBatchToken ∧
      (syncMatrix st env).state.messageBuffer = st.messageBuffer ∧
      (syncMatrix st env).addMessageCalls = [] := by
  cases hw : env.wifiConnected <;> simp [syncMatrix, hw, hm]

theorem lowMemory_skips_cycle_witness :
    (syncMatrix ⟨"tok1", []⟩ ⟨true, 20000, 200, "", none⟩).networkCalls = 0 ∧
      (syncMatrix ⟨"tok1", []⟩ ⟨true, 20000, 200, "", none⟩).state = ⟨"tok1", []⟩ ∧
      (syncMatrix ⟨"tok1", []⟩ ⟨true, 20000, 200, "", none⟩).state.nextBatchToken
        = "tok1" ∧
      (syncMatrix ⟨"tok1", []⟩ ⟨true, 20000, 200, "", none⟩).state.messageBuffer = [] ∧
      (syncMatrix ⟨"tok1", []⟩ ⟨true, 20000, 200, "", none⟩).addMessageCalls = [] :=
  lowMemory_skips_cycle ⟨"tok1", []⟩ ⟨true, 20000, 200, "", none⟩ (by decide)

/-- C10: a successfully decoded incremental response whose next_batch field
is absent or null leaves the previous token untouched, so the next cycle
still runs in the incremental phase with the old cursor. -/
theorem missingNextBatch_keeps_token (st : SyncState) (env : SyncEnv) (doc : SyncDoc)
    (hw : env.wifiConnected = true) (hm : 40000 ≤ env.freeHeap)
    (hc : env.httpCode = 200) (htok : st.nextBatchToken ≠ "")
    (hd : env.decodeResult = some doc)
    (hnb : doc.next_batch = none) :
    (syncMatrix st env).state.nextBatchToken = st.nextBatchToken ∧
      isInitialSyncPhase (syncMatrix st env).state = false := by
  have hm' : ¬ env.freeHeap < 40000 := by omega
  have hphase : isInitialSyncPhase st = false := by
    simp only [isInitialSyncPhase, beq_eq_false_iff_ne, ne_eq]
    rw [string_length_eq_zero_iff]
    exact htok
  have hphase' : ¬ st.nextBatchToken.length = 0 := by
    rw [string_length_eq_zero_iff]
    exact htok
  rcases hlook : doc.roomsJoin.lookup ROOM_ID with _ | room
  · simp [syncMatrix, hw, hm', hc, hphase, hd, hnb, hlook, isInitialSyncPhase, hphase']
  · rcases hevs : room.timelineEvents with _ | events
    · simp [syncMatrix, hw, hm', hc, hphase, hd, hnb, hlook, hevs,
        isInitialSyncPhase, hphase']
    · by_cases hlen : 0 < events.length
      · simp [syncMatrix, hw, hm', hc, hphase, hd, hnb, hlook, hevs, hlen,
          isInitialSyncPhase, hphase']
      · simp [syncMatrix, hw, hm', hc, hphase, hd, hnb, hlook, hevs, hlen,
          isInitialSyncPhase, hphase']

theorem missingNextBatch_keeps_token_witness :
    (syncMatrix ⟨"tok1", []⟩
        ⟨true, 50000, 200, "", some ⟨none, []⟩⟩).state.nextBatchToken = "tok1" ∧
      isInitialSyncPhase
        (syncMatrix ⟨"tok1", []⟩ ⟨true, 50000, 200, "", some ⟨none, []⟩⟩).state
        = false :=
  missingNextBatch_keeps_token ⟨"tok1", []⟩ ⟨true, 50000, 200, "", some ⟨none, []⟩⟩
    ⟨none, []⟩ rfl (by decide) rfl (by decide) rfl rfl

/-- A decoded incremental document whose single timeline event has the
admitted type and msgtype but no sender field. -/
def missingSenderDoc : SyncDoc :=
  { next_batch := some "tok2"
    roomsJoin :=
      [(ROOM_ID,
        { timelineEvents :=
            some [{ type := some "m.room.message"
                    sender := none
                    content := some { msgtype := some "m.text", body := some "hi" } }] })] }

/-- C3: the source admits an event on type and content.msgtype alone and
never checks that sender and body are present; on an event of type
m.room.message and msgtype m.text with no sender field, addMessage is still
invoked and receives a null sender pointer (which reaches strncpy,
undefined behavior), instead of the event being discarded without touching
the history. -/
theorem missingSender_reaches_addMessage :
    (syncMatrix ⟨"tok1", []⟩
        ⟨true, 50000, 200, "", some missingSenderDoc⟩).addMessageCalls
      = [(none, some "hi")] ∧
      passesNullPointer
        (syncMatrix ⟨"tok1", []⟩ ⟨true, 50000, 200, "", some missingSenderDoc⟩)
        = true := by
  constructor <;> rfl

/-- The mutable loop state the claim about scheduling concerns: the
compose-mode flag, the draft text, and the periodic timer reference
lastSyncTime (milliseconds). -/
structure LoopState where
  isInputMode : Bool
  inputString : String
  lastSyncTime : Nat
deriving Repr, DecidableEq

/-- The keyboard snapshot read in one loop pass: the typed characters, the
delete flag and the enter flag. -/
structure KeysState where
  word : List Char
  del : Bool
  enter : Bool
deriving Repr, DecidableEq

/-- The external inputs of one loop pass: whether the keyboard reported a
change with keys pressed, the keys snapshot, the BtnA click, the result
sendMessage would return if invoked, and the millis reading used by the
periodic check. Wraparound of the 32-bit millis counter is not modelled
here; now is the reading with now at least lastSyncTime. -/
structure TickInput where
  keysChanged : Bool
  keys : KeysState
  btnA : Bool
  sendOk : Bool
  now : Nat
deriving Repr, DecidableEq

/-- Which syncMatrix invocations one loop pass performs, in order. -/
inductive SyncTrigger where
  | forced
  | periodic
deriving Repr, DecidableEq

/-- One pass of loop() from the source, restricted to the state the
scheduling claim concerns. In order: the keyboard block (typed characters
enter input mode and extend the draft; delete removes the last character;
enter with a non-empty draft sends, and on success clears the draft,
leaves input mode and immediately invokes syncMatrix), the BtnA cancel
block, and the periodic block that runs syncMatrix and sets lastSyncTime
to the current millis reading when the interval has elapsed and input mode
is off. The returned list records the syncMatrix invocations of the pass. -/
def loopTick (st0 : LoopState) (inp : TickInput) : LoopState × List SyncTrigger :=
  let st1 :=
    if inp.keysChanged then
      inp.keys.word.foldl
        (fun s c =>
          let s' :=
            if s.isInputMode = false then
              { s with isInputMode := true, inputString := "" }
            else s
          { s' with inputString := (s'.inputString.toList ++ [c]).asString })
        st0
    else st0
  let st2 :=
    if inp.keysChanged ∧ inp.keys.del ∧ 0 < st1.inputString.length then
      { st1 with inputString := st1.inputString.toList.dropLast.asString }
    else st1
  let afterEnter :=
    if inp.keysChanged ∧ inp.keys.enter ∧ st2.isInputMode ∧ 0 < st2.inputString.length then
      if inp.sendOk then
        ({ st2 with isInputMode := false, inputString := "" }, [SyncTrigger.forced])
      else (st2, ([] : List SyncTrigger))
    else (st2, [])
  let st3 := afterEnter.1
  let st4 :=
    if inp.btnA ∧ st3.isInputMode then
      { st3 with isInputMode := false, inputString := "" }
    else st3
  if st4.isInputMode = false ∧ SYNC_INTERVAL_MS < inp.now - st4.lastSyncTime then
    ({ st4 with lastSyncTime := inp.now }, afterEnter.2 ++ [SyncTrigger.periodic])
  else (st4, afterEnter.2)

/-- A loop state in input mode with a non-empty draft and periodic
reference 0. -/
def composingState : LoopState :=
  { isInputMode := true, inputString := "hi", lastSyncTime := 0 }

/-- A pass input at millis 3000 in which enter is pressed and the send
succeeds; the periodic interval (5000 ms) has not elapsed. -/
def enterAt3000 : TickInput :=
  { keysChanged := true
    keys := { word := [], del := false, enter := true }
    btnA := false
    sendOk := true
    now := 3000 }

/-- A quiet pass input at millis 5001: no keys, no button. -/
def quietAt5001 : TickInput :=
  { keysChanged := false
    keys := { word := [], del := false, enter := false }
    btnA := false
    sendOk := false
    now := 5001 }

/-- C6 counterexample: in the pass at millis 3000 the forced post-send sync
does run, but lastSyncTime is left at 0 rather than being reset to 3000;
consequently the quiet pass at millis 5001 already runs a periodic sync,
only 2001 ms after the forced one, which the claim rules out. -/
theorem forcedSync_timer_not_reset :
    (loopTick composingState enterAt3000).2 = [SyncTrigger.forced] ∧
      (loopTick composingState enterAt3000).1.lastSyncTime = 0 ∧
      (loopTick composingState enterAt3000).1.lastSyncTime ≠ enterAt3000.now ∧
      (loopTick (loopTick composingState enterAt3000).1 quietAt5001).2
        = [SyncTrigger.periodic] := by
  refine ⟨rfl, rfl, by decide, rfl⟩

/-- C6 as amended: when a pass commits a successful send, the forced sync
runs in that same pass regardless of how much of the periodic interval
remains, but it does not reset the periodic timer reference point:
lastSyncTime is unchanged whenever the interval has not elapsed, so the
following periodic sync is still measured from the previous periodic
reference, not from the forced sync. -/
theorem forcedSync_runs_without_timer_reset (st : LoopState) (inp : TickInput)
    (hmode : st.isInputMode = true) (hdraft : 0 < st.inputString.length)
    (hchg : inp.keysChanged = true) (henter : inp.keys.enter = true)
    (hword : inp.keys.word = []) (hdel : inp.keys.del = false)
    (hok : inp.sendOk = true)
    (hint : inp.now - st.lastSyncTime ≤ SYNC_INTERVAL_MS) :
    (loopTick st inp).2 = [SyncTrigger.forced] ∧
      (loopTick st inp).1.lastSyncTime = st.lastSyncTime := by
  have hint' : ¬ SYNC_INTERVAL_MS < inp.now - st.lastSyncTime := by omega
  simp [loopTick, hmode, hdraft, hchg, henter, hword, hdel, hok, hint']

theorem forcedSync_runs_without_timer_reset_witness :
    (loopTick ⟨true, "ok", 100⟩
        ⟨true, ⟨[], false, true⟩, false, true, 4000⟩).2 = [SyncTrigger.forced] ∧
      (loopTick ⟨true, "ok", 100⟩
        ⟨true, ⟨[], false, true⟩, false, true, 4000⟩).1.lastSyncTime = 100 :=
  forcedSync_runs_without_timer_reset ⟨true, "ok", 100⟩
    ⟨true, ⟨[], false, true⟩, false, true, 4000⟩
    rfl (by decide) rfl rfl rfl rfl rfl (by decide)

/-- The 32-bit modulus of the unsigned long millis counter. -/
def UINT32_MOD : Nat := 4294967296

/-- The decimal rendering an Arduino String(unsigned long) constructor
produces for a counter value: the base-10 digits, most significant first. -/
def decimalRendering (n : Nat) : String :=
  if n = 0 then "0" else ((Nat.digits 10 n).reverse.map Nat.digitChar).asString

/-- The transaction id sendMessage generates for a send attempt whose
elapsed runtime is t milliseconds: String(millis()), where millis() is the
elapsed time truncated to 32 bits. -/
def txnIdAt (t : Nat) : String :=
  decimalRendering (t % UINT32_MOD)

lemma digitChar_inj_below_ten :
    ∀ a, a < 10 → ∀ b, b < 10 → Nat.digitChar a = Nat.digitChar b → a = b := by
  decide

lemma map_digitChar_inj :
    ∀ l1 l2 : List Nat, (∀ d ∈ l1, d < 10) → (∀ d ∈ l2, d < 10) →
      l1.map Nat.digitChar = l2.map Nat.digitChar → l1 = l2 := by
  intro l1
  induction l1 with
  | nil =>
    intro l2 _ _ h
    cases l2 with
    | nil => rfl
    | cons b bs => simp at h
  | cons a as ih =>
    intro l2 h1 h2 h
    cases l2 with
    | nil => simp at h
    | cons b bs =>
      simp only [List.map_cons, List.cons.injEq] at h
      have ha : a < 10 := h1 a (List.mem_cons_self a as)
      have hb : b < 10 := h2 b (List.mem_cons_self b bs)
      have hab : a = b := digitChar_inj_below_ten a ha b hb h.1
      have htl : as = bs :=
        ih bs (fun d hd => h1 d (List.mem_cons_of_mem a hd))
          (fun d hd => h2 d (List.mem_cons_of_mem b hd)) h.2
      rw [hab, htl]

lemma digits_all_below_ten (n : Nat) : ∀ d ∈ Nat.digits 10 n, d < 10 :=
  fun _ hd => Nat.digits_lt_base (by norm_num) hd

lemma rendering_ne_zero_of_ne_zero {n : Nat} (hn : n ≠ 0) :
    ((Nat.digits 10 n).reverse.map Nat.digitChar).asString ≠ "0" := by
  intro hcontra
  have hdata : (Nat.digits 10 n).reverse.map Nat.digitChar = ['0'] := by
    have := congrArg String.toList hcontra
    rwa [List.toList_asString] at this
  rcases hrev : (Nat.digits 10 n).reverse with _ | ⟨d, rest⟩
  · rw [hrev] at hdata
    simp at hdata
  · rw [hrev] at hdata
    simp only [List.map_cons, List.cons.injEq] at hdata
    have hrest : rest.map Nat.digitChar = [] := hdata.2
    have hrestnil : rest = [] := by
      cases rest with
      | nil => rfl
      | cons x xs => simp at hrest
    have hd10 : d < 10 := by
      refine digits_all_below_ten n d ?_
      have : d ∈ (Nat.digits 10 n).reverse := by rw [hrev]; exact List.mem_cons_self d rest
      exact List.mem_reverse.mp this
    have hd0 : d = 0 := digitChar_inj_below_ten d hd10 0 (by norm_num) hdata.1
    have hdig : Nat.digits 10 n = [0] := by
      have : (Nat.digits 10 n).reverse = [0] := by rw [hrev, hrestnil, hd0]
      have := congrArg List.reverse this
      simpa using this
    have : n = 0 := by
      have h := Nat.ofDigits_digits 10 n
      rw [hdig] at h
      simpa [Nat.ofDigits] using h.symm
    exact hn this

lemma decimalRendering_inj {m n : Nat} (h : decimalRendering m = decimalRendering n) :
    m = n := by
  by_cases hm : m = 0 <;> by_cases hn : n = 0
  · rw [hm, hn]
  · exfalso
    rw [decimalRendering, decimalRendering, if_pos hm, if_neg hn] at h
    exact rendering_ne_zero_of_ne_zero hn h.symm
  · exfalso
    rw [decimalRendering, decimalRendering, if_neg hm, if_pos hn] at h
    exact rendering_ne_zero_of_ne_zero hm h
  · rw [decimalRendering, decimalRendering, if_neg hm, if_neg hn] at h
    have hlists :
        (Nat.digits 10 m).reverse.map Nat.digitChar =
          (Nat.digits 10 n).reverse.map Nat.digitChar := List.asString_inj.mp h
    have hrev : (Nat.digits 10 m).reverse = (Nat.digits 10 n).reverse :=
      map_digitChar_inj _ _
        (fun d hd => digits_all_below_ten m d (List.mem_reverse.mp hd))
        (fun d hd => digits_all_below_ten n d (List.mem_reverse.mp hd)) hlists
    have hdig : Nat.digits 10 m = Nat.digits 10 n := List.reverse_inj.mp hrev
    have := congrArg (Nat.ofDigits 10) hdig
    rwa [Nat.ofDigits_digits, Nat.ofDigits_digits] at this

/-- C9 counterexample: two distinct send attempts, one at elapsed time 0 ms
and one at elapsed time 4294967296 ms (the 32-bit millis counter has
wrapped exactly once), receive the same transaction id. -/
theorem txnId_collision_across_wraparound :
    txnIdAt 0 = txnIdAt 4294967296 ∧ (0 : Nat) ≠ 4294967296 := by
  constructor
  · rfl
  · decide

/-- C9 as amended: transaction ids of two send attempts are distinct
whenever the 32-bit millis counter readings of the two attempts differ;
uniqueness holds per distinct counter value, and fails exactly for
attempts whose elapsed times agree modulo 2 to the 32 (same millisecond,
or readings separated by a whole wraparound period). -/
theorem txnId_distinct_of_distinct_reading (t1 t2 : Nat)
    (h : t1 % UINT32_MOD ≠ t2 % UINT32_MOD) :
    txnIdAt t1 ≠ txnIdAt t2 := by
  intro hcontra
  exact h (decimalRendering_inj hcontra)

theorem txnId_distinct_of_distinct_reading_witness :
    txnIdAt 1 ≠ txnIdAt 2 :=
  txnId_distinct_of_distinct_reading 1 2 (by decide)

end CardputerPager
